import Mathlib

/-!
Verification development for the `certparse` package of gwatts/rootcerts.

The Go source (certparse.go) is shallowly embedded here:

* Go strings are modelled as `List Char` (`GoStr`); the certdata dialect is
  ASCII-oriented, so Go's byte indexing coincides with character indexing on
  all inputs this development manipulates.
* The `bufio.Scanner` line source is modelled by a `List String` of the
  input's lines.
* A Go runtime panic (out-of-range slice) is modelled by `Option`-valued
  functions returning `none`, or by the `GoOut.crash` constructor at the
  levels where a fuel bound is also needed.
* Loops whose per-iteration progress is not structural (`ReadObjects`, which
  genuinely fails to terminate on some inputs) take an explicit fuel
  argument; fuel exhaustion is the distinguished value `GoOut.diverge`.
* The error values carried by `error`/`Except` are modelled as strings whose
  exact text mirrors the Go messages except for `fmt.Errorf` formatting
  details (`%q` quoting), which no theorem depends on.
-/

namespace Certparse

/-- Go strings modelled as character lists (byte strings of the ASCII-oriented
certdata dialect). -/
abbrev GoStr := List Char

/-- Outcome of running a Go computation that may panic or fail to terminate:
`crash` models a runtime panic, `diverge` models non-termination (fuel
exhaustion in this embedding), `ret` is a normal return. -/
inductive GoOut (α : Type) where
  | crash : GoOut α
  | diverge : GoOut α
  | ret : α → GoOut α
deriving DecidableEq

/-- `MozValue` from the source: one token of the certdata stream.
The Go field `Type` is rendered `Typ` (`Type` is reserved in Lean). -/
structure MozValue where
  Field : GoStr
  Typ : GoStr
  Value : GoStr
deriving DecidableEq

/-- A parsed object: field-name/value pairs. Models the Go
`map[string]string` built by `ScanObject`; insertion prepends and lookup
takes the first match, giving Go's overwrite-on-assign semantics. -/
abbrev Obj := List (GoStr × GoStr)

/-- Go `object[k] = v` (map assignment). -/
def objInsert (o : Obj) (k v : GoStr) : Obj := (k, v) :: o

/-- Go `obj[k]` on a `map[string]string`: zero value `""` when absent. -/
def objGet : Obj → GoStr → GoStr
  | [], _ => []
  | (k, v) :: rest, key => if k = key then v else objGet rest key

/-- `strings.SplitN(line, " ", 3)` returns one, two or three segments. -/
inductive Parts where
  | one : GoStr → Parts
  | two : GoStr → GoStr → Parts
  | three : GoStr → GoStr → GoStr → Parts
deriving DecidableEq

/-- Split at the first space: `none` when no space occurs. -/
def splitAtSpace : GoStr → Option (GoStr × GoStr)
  | [] => none
  | c :: rest =>
    if c = ' ' then some ([], rest)
    else match splitAtSpace rest with
      | none => none
      | some (a, b) => some (c :: a, b)

/-- Models `strings.SplitN(line, " ", 3)`: at most three parts, the third
being the unsplit remainder. -/
def splitN3 (cs : GoStr) : Parts :=
  match splitAtSpace cs with
  | none => .one cs
  | some (a, rest) =>
    match splitAtSpace rest with
    | none => .two a rest
    | some (b, rest2) => .three a b rest2

/-- An octal digit `'0'..'7'` and its value. -/
def octDigit (c : Char) : Option Nat :=
  if 48 ≤ c.toNat ∧ c.toNat ≤ 55 then some (c.toNat - 48) else none

/-- Accumulate base-8 digits; `none` on the first non-digit. -/
def parseOctDigits : GoStr → Nat → Option Nat
  | [], acc => some acc
  | c :: rest, acc =>
    match octDigit c with
    | none => none
    | some d => parseOctDigits rest (acc * 8 + d)

/-- Digits (after an optional sign) of `strconv.ParseInt(s, 8, 16)`:
non-empty, all octal, result bounded to the int16 range. -/
def parseOctCore (ds : GoStr) (neg : Bool) : Option Int :=
  match ds with
  | [] => none
  | _ :: _ =>
    match parseOctDigits ds 0 with
    | none => none
    | some n =>
      let v : Int := if neg then -(n : Int) else (n : Int)
      if v < -(2 ^ 15) ∨ 2 ^ 15 - 1 < v then none else some v

/-- Models `strconv.ParseInt(s, 8, 16)`: optional sign, then base-8 digits. -/
def parseOct (cs : GoStr) : Option Int :=
  match cs with
  | [] => none
  | c :: rest =>
    if c = '+' then parseOctCore rest false
    else if c = '-' then parseOctCore rest true
    else parseOctCore cs false

/-- The per-line body of `readMultilineOctal`'s process callback:
`for i := 0; i < len(line); i += 4` parses `line[i+1:i+4]` as octal and
appends `byte(n)`. The slice panics (`none`) when `i < len(line)` but
`i+4 > len(line)`; a failed `ParseInt` stops the line with the error flag
`true`, keeping the bytes decoded before it. The leading character of each
group (`line[i]`, the backslash position) is never inspected by the source. -/
def processOctalGroups : GoStr → Option (List Nat × Bool)
  | [] => some ([], false)
  | _ :: c2 :: c3 :: c4 :: rest =>
    (match parseOct [c2, c3, c4] with
     | none => some ([], true)
     | some n =>
       match processOctalGroups rest with
       | none => none
       | some (bs, e) => some ((n % 256).toNat :: bs, e))
  | _ :: _ => none

/-- The `readMultiline` loop specialised to the octal process callback:
consume lines until `"END"`, decoding each; at end-of-input the Go code
builds the error `"unexpected EOF in multiline value"`, and a process error
stops consumption at that line. Returns accumulated bytes, the
`readMultiline` error, remaining lines and line count; `none` is a panic. -/
def readMultilineOctalBody : List String → Nat → List Nat →
    Option (List Nat × Option GoStr × List String × Nat)
  | [], ln, acc => some (acc, some ("unexpected EOF in multiline value").toList, [], ln)
  | l :: rest, ln, acc =>
    if l = "END" then some (acc, none, rest, ln + 1)
    else
      match processOctalGroups l.toList with
      | none => none
      | some (bs, true) => some (acc ++ bs, some ("octal parse error").toList, rest, ln + 1)
      | some (bs, false) => readMultilineOctalBody rest (ln + 1) (acc ++ bs)

/-- `readMultilineOctal` from the source. NOTE (faithful to the source): the
Go code calls `ms.readMultiline(...)` and discards its error result,
returning `string(v), nil` — so the error component of the returned value is
always `none`, even on unterminated input or a malformed octal group. -/
def readMultilineOctal (lines : List String) (ln : Nat) :
    Option ((GoStr × Option GoStr) × List String × Nat) :=
  match readMultilineOctalBody lines ln [] with
  | none => none
  | some (bytes, _discardedErr, rest, ln') =>
    some ((bytes.map Char.ofNat, none), rest, ln')

/-- `strings.Join(v, "\n")`. -/
def joinNewline : List GoStr → GoStr
  | [] => []
  | [x] => x
  | x :: xs => x ++ '\n' :: joinNewline xs

/-- The `readMultiline` loop specialised to the generic (accumulate raw
lines) callback, which never errors itself; only end-of-input produces the
`readMultiline` error. -/
def readMultilineGenericBody : List String → Nat → List GoStr →
    (List GoStr × Option GoStr × List String × Nat)
  | [], ln, acc => (acc, some ("unexpected EOF in multiline value").toList, [], ln)
  | l :: rest, ln, acc =>
    if l = "END" then (acc, none, rest, ln + 1)
    else readMultilineGenericBody rest (ln + 1) (acc ++ [l.toList])

/-- `readMultilineGeneric` from the source. NOTE (faithful to the source):
the Go code discards `ms.readMultiline`'s error and returns
`strings.Join(v, "\n"), nil`, so the error component is always `none`. -/
def readMultilineGeneric (lines : List String) (ln : Nat) :
    (GoStr × Option GoStr) × List String × Nat :=
  match readMultilineGenericBody lines ln [] with
  | (acc, _discardedErr, rest, ln') => ((joinNewline acc, none), rest, ln')

/-- Interior of a double-quoted Go string: plain characters plus the escapes
backslash-backslash and backslash-quote, terminated by the closing quote. -/
def goUnquoteBody : GoStr → Option GoStr
  | [] => none
  | ['"'] => some []
  | '"' :: _ :: _ => none
  | '\\' :: c :: rest =>
    if c = '\\' ∨ c = '"' then
      match goUnquoteBody rest with
      | none => none
      | some v => some (c :: v)
    else none
  | c :: rest =>
    if c = '\\' ∨ c = '"' then none
    else
      match goUnquoteBody rest with
      | none => none
      | some v => some (c :: v)

/-- Models `strconv.Unquote` for the double-quoted strings of the certdata
dialect: inputs shorter than 2 characters are a syntax error (as in Go);
the input must be surrounded by double quotes; interior raw quotes, dangling
backslashes and escape sequences other than backslash-backslash and
backslash-quote are rejected. (Go's `Unquote` additionally accepts
backquoted/single-quoted forms and further escape sequences; those do not
occur in the inputs of this development and no theorem depends on the
decoded content of a successfully unquoted label.) -/
def goUnquote (cs : GoStr) : Option GoStr :=
  if cs.length < 2 then none
  else
    match cs with
    | '"' :: rest => goUnquoteBody rest
    | _ => none

/-- Result of one step of the tokenizer's line loop. -/
inductive ScanStep where
  | oob : ScanStep
  | eof : Nat → ScanStep
  | fail : GoStr → List String → Nat → ScanStep
  | tok : MozValue → List String → Nat → ScanStep
deriving DecidableEq

/-- The `switch` body of `ScanValue` for a line split into field `f`, type
tag `t` and optional inline region `v3`. Mirrors the Go source
case-for-case; `ScanStep.oob` marks the out-of-range slices
`parts[2][1:len(parts[2])-1]` (when the unquote fallback runs on an inline
region shorter than 2) and `ftype[len("MULTILINE_"):]` (when `ftype` is
exactly `"MULTILINE"`). -/
def scanDispatch (f t : GoStr) (v3 : Option GoStr) (rest : List String) (ln : Nat) : ScanStep :=
  if t = ("UTF8").toList then
    match v3 with
    | some p2 =>
      (match goUnquote p2 with
       | some v => .tok ⟨f, t, v⟩ rest ln
       | none =>
         if 2 ≤ p2.length then .tok ⟨f, t, (p2.drop 1).take (p2.length - 2)⟩ rest ln
         else .oob)
    | none => .tok ⟨f, t, []⟩ rest ln
  else if (("MULTILINE").toList).isPrefixOf t then
    if t.length < 10 then .oob
    else if t.drop 10 = ("OCTAL").toList then
      match readMultilineOctal rest ln with
      | none => .oob
      | some ((_, some e), rest', ln') => .fail e rest' ln'
      | some ((v, none), rest', ln') => .tok ⟨f, t, v⟩ rest' ln'
    else
      match readMultilineGeneric rest ln with
      | ((_, some e), rest', ln') => .fail e rest' ln'
      | ((_, none), rest', ln') => .tok ⟨f, t, []⟩ rest' ln'
  else
    match v3 with
    | some v => .tok ⟨f, t, v⟩ rest ln
    | none => .tok ⟨f, t, []⟩ rest ln

/-- The `for ms.s.Scan()` loop of `ScanValue`: skip blank lines, `#`
comments and lines with fewer than two space-delimited segments, then
dispatch on the type tag. -/
def scanValueLoop : List String → Nat → ScanStep
  | [], ln => .eof ln
  | line :: rest, ln =>
    match line.toList with
    | [] => scanValueLoop rest (ln + 1)
    | c :: cs' =>
      if c = '#' then scanValueLoop rest (ln + 1)
      else
        match splitN3 (c :: cs') with
        | .one _ => scanValueLoop rest (ln + 1)
        | .two f t => scanDispatch f t none rest (ln + 1)
        | .three f t v => scanDispatch f t (some v) rest (ln + 1)

/-- `MozScanner` state from the source. -/
structure MozScanner where
  lines : List String
  ln : Nat
  skippedHeader : Bool
  lastValue : MozValue
  valueError : Option GoStr
  lastObject : Obj
  objectError : Option GoStr
deriving DecidableEq

/-- `NewMozScanner`: zero state over the input lines. -/
def NewMozScanner (input : List String) : MozScanner :=
  ⟨input, 0, false, ⟨[], [], []⟩, none, [], none⟩

/-- `skipHeader`: consume lines up to and including `"BEGINDATA"`; the
boolean records whether the sentinel was found. -/
def skipHeaderGo : List String → Nat → Bool × List String × Nat
  | [], ln => (false, [], ln)
  | l :: rest, ln =>
    if l = "BEGINDATA" then (true, rest, ln + 1)
    else skipHeaderGo rest (ln + 1)

/-- The post-header part of `ScanValue`, rebuilding the scanner state from a
`ScanStep`. `none` is a panic. -/
def scanValueGo (ms : MozScanner) : Option (Bool × MozScanner) :=
  match scanValueLoop ms.lines ms.ln with
  | .oob => none
  | .eof ln => some (false, { ms with lines := [], ln := ln })
  | .fail e rest ln => some (false, { ms with lines := rest, ln := ln, valueError := some e })
  | .tok v rest ln => some (true, { ms with lines := rest, ln := ln, lastValue := v })

/-- `ScanValue` after its `ms.valueError = nil` reset: skip the header on
the first call (failing with the `BEGINDATA` error if absent), then run the
line loop. `none` is a panic. -/
def scanValueCore (ms0 : MozScanner) : Option (Bool × MozScanner) :=
  if ms0.skippedHeader then scanValueGo ms0
  else
    match skipHeaderGo ms0.lines ms0.ln with
    | (false, rest, ln) =>
      some (false,
        { ms0 with
          lines := rest
          ln := ln
          valueError := some (("BEGINDATA line not found in certdata input").toList) })
    | (true, rest, ln) =>
      scanValueGo { ms0 with lines := rest, ln := ln, skippedHeader := true }

/-- `ScanValue` from the source: reset `valueError`, then `scanValueCore`. -/
def scanValue (ms : MozScanner) : Option (Bool × MozScanner) :=
  scanValueCore { ms with valueError := none }

/-- The tokens produced by up to `n` successive `ScanValue` calls (stopping
at the first call that does not return `true`). -/
def scanTokens : Nat → MozScanner → List MozValue
  | 0, _ => []
  | n + 1, ms =>
    match scanValue ms with
    | some (true, ms') => ms'.lastValue :: scanTokens n ms'
    | _ => []

/-- The first loop of `ScanObject`:
`for value.Field != "CKA_CLASS" && ms.ScanValue() { value = ms.Value() }`.
Each `true` iteration of `scanValue` consumes at least one input line, so a
fuel of `ms.lines.length + 1` always suffices (proved below). -/
def scanObjLoop1 : Nat → MozValue → MozScanner → GoOut (MozValue × MozScanner)
  | 0, _, _ => .diverge
  | fuel + 1, value, ms =>
    if value.Field = ("CKA_CLASS").toList then .ret (value, ms)
    else
      match scanValue ms with
      | none => .crash
      | some (false, ms') => .ret (value, ms')
      | some (true, ms') => scanObjLoop1 fuel ms'.lastValue ms'

/-- The second loop of `ScanObject`: fold `(field, value)` pairs into the
object until another `CKA_CLASS` token seals it, or the value stream ends
(returning the in-progress object), or a scan error surfaces. -/
def scanObjLoop2 : Nat → Obj → MozScanner → GoOut (Bool × MozScanner)
  | 0, _, _ => .diverge
  | fuel + 1, object, ms =>
    match scanValue ms with
    | none => .crash
    | some (true, ms') =>
      if ms'.lastValue.Field = ("CKA_CLASS").toList then
        .ret (true, { ms' with lastObject := object })
      else scanObjLoop2 fuel (objInsert object ms'.lastValue.Field ms'.lastValue.Value) ms'
    | some (false, ms') =>
      match ms'.valueError with
      | some e => .ret (false, { ms' with objectError := some e })
      | none => .ret (true, { ms' with lastObject := object })

/-- `ScanObject` from the source: seek a `CKA_CLASS` token (the previous
call's sealing token, still in `lastValue`, seeds the next object), then
accumulate fields until the next `CKA_CLASS` or end of stream. The internal
fuel `lines.length + 1` is sufficient (`scanObject_ne_diverge`). -/
def scanObjectCore (ms0 : MozScanner) : GoOut (Bool × MozScanner) :=
  match scanObjLoop1 (ms0.lines.length + 1) ms0.lastValue ms0 with
  | .crash => .crash
  | .diverge => .diverge
  | .ret (value, ms1) =>
    match ms1.valueError with
    | some e => .ret (false, { ms1 with objectError := some e })
    | none =>
      if value.Field = ("CKA_CLASS").toList then
        scanObjLoop2 (ms1.lines.length + 1) (objInsert [] value.Field value.Value) ms1
      else .ret (false, ms1)

/-- `ScanObject` from the source: reset `objectError`, then `scanObjectCore`. -/
def scanObject (ms : MozScanner) : GoOut (Bool × MozScanner) :=
  scanObjectCore { ms with objectError := none }

/-- The loop of `ReadObjects`:
`for scanner.ScanObject() { objects = append(objects, scanner.Object()) }`.
This loop genuinely fails to terminate on some inputs (see the `ScanObject`
end-of-stream analysis), so it takes caller-supplied fuel. -/
def readObjectsLoop : Nat → MozScanner → List Obj → GoOut (Except GoStr (List Obj))
  | 0, _, _ => .diverge
  | fuel + 1, ms, acc =>
    match scanObject ms with
    | .crash => .crash
    | .diverge => .diverge
    | .ret (true, ms') => readObjectsLoop fuel ms' (acc ++ [ms'.lastObject])
    | .ret (false, ms') =>
      match ms'.objectError with
      | some e => .ret (.error e)
      | none => .ret (.ok acc)

/-- `ReadObjects` from the source, over the input's lines. -/
def ReadObjects (fuel : Nat) (input : List String) : GoOut (Except GoStr (List Obj)) :=
  readObjectsLoop fuel (NewMozScanner input) []

/-- `TrustLevel` from the source. -/
structure TrustLevel where
  ServerTrustedDelegator : Bool
  EmailTrustedDelegator : Bool
  CodeTrustedDelegator : Bool
deriving DecidableEq

/-- The `trusted` map of `findTrusted`; insertion prepends and lookup takes
the first match, matching Go map overwrite semantics. -/
abbrev TrustMap := List (GoStr × TrustLevel)

/-- Go `trusted[label]` returning presence. -/
def lookupTrust : TrustMap → GoStr → Option TrustLevel
  | [], _ => none
  | (k, v) :: rest, key => if k = key then some v else lookupTrust rest key

/-- `knownTrustLevels` from the source. -/
def knownTrustLevels : List GoStr :=
  [("CKT_NSS_TRUSTED_DELEGATOR").toList, ("CKT_NSS_MUST_VERIFY_TRUST").toList,
   ("CKT_NSS_NOT_TRUSTED").toList]

/-- `trustedDelegator` from the source. -/
def trustedDelegator : GoStr := ("CKT_NSS_TRUSTED_DELEGATOR").toList

/-- `contains` from the source. -/
def contains (val : GoStr) : List GoStr → Bool
  | [] => false
  | v :: rest => if v = val then true else contains val rest

/-- The error built by `fmt.Errorf("unknown trust level %q referenced", s)`
(modulo `%q` quote rendering, on which nothing depends). Note the source
passes `serverTrust` for all three checks. -/
def errUnknownTrust (s : GoStr) : GoStr :=
  ("unknown trust level ").toList ++ s ++ (" referenced").toList

/-- The `TrustLevel` the source derives from a trust declaration object:
each purpose bit is the equality test of the corresponding field against
`CKT_NSS_TRUSTED_DELEGATOR` (the Go local variable `trust`). -/
def trustLevelOf (obj : Obj) : TrustLevel :=
  ⟨decide (objGet obj ("CKA_TRUST_SERVER_AUTH").toList = trustedDelegator),
   decide (objGet obj ("CKA_TRUST_EMAIL_PROTECTION").toList = trustedDelegator),
   decide (objGet obj ("CKA_TRUST_CODE_SIGNING").toList = trustedDelegator)⟩

/-- One iteration of `findTrusted`'s loop over objects, mirroring the Go
source (the Go locals `serverTrust`, `emailTrust`, `codeTrust` are inlined
as their defining `objGet` expressions): skip non-`CKO_NSS_TRUST` objects;
reject a trust value outside `knownTrustLevels` (the source interpolates
`serverTrust` into all three messages); skip the whole declaration when any
of the three fields is `CKT_NSS_NOT_TRUSTED`; otherwise record the derived
`TrustLevel` only when at least one purpose bit is set. -/
def findTrustedStep (trusted : TrustMap) (obj : Obj) : Except GoStr TrustMap :=
  if objGet obj ("CKA_CLASS").toList ≠ ("CKO_NSS_TRUST").toList then .ok trusted
  else if !contains (objGet obj ("CKA_TRUST_SERVER_AUTH").toList) knownTrustLevels then
    .error (errUnknownTrust (objGet obj ("CKA_TRUST_SERVER_AUTH").toList))
  else if !contains (objGet obj ("CKA_TRUST_EMAIL_PROTECTION").toList) knownTrustLevels then
    .error (errUnknownTrust (objGet obj ("CKA_TRUST_SERVER_AUTH").toList))
  else if !contains (objGet obj ("CKA_TRUST_CODE_SIGNING").toList) knownTrustLevels then
    .error (errUnknownTrust (objGet obj ("CKA_TRUST_SERVER_AUTH").toList))
  else if objGet obj ("CKA_TRUST_SERVER_AUTH").toList = ("CKT_NSS_NOT_TRUSTED").toList ∨
          objGet obj ("CKA_TRUST_EMAIL_PROTECTION").toList = ("CKT_NSS_NOT_TRUSTED").toList ∨
          objGet obj ("CKA_TRUST_CODE_SIGNING").toList = ("CKT_NSS_NOT_TRUSTED").toList then
    .ok trusted
  else if (trustLevelOf obj).ServerTrustedDelegator || (trustLevelOf obj).EmailTrustedDelegator ||
          (trustLevelOf obj).CodeTrustedDelegator then
    .ok ((objGet obj ("CKA_LABEL").toList, trustLevelOf obj) :: trusted)
  else .ok trusted

/-- The loop of `findTrusted` threading the accumulated map. -/
def findTrustedGo (trusted : TrustMap) : List Obj → Except GoStr TrustMap
  | [] => .ok trusted
  | obj :: rest =>
    match findTrustedStep trusted obj with
    | .error e => .error e
    | .ok t' => findTrustedGo t' rest

/-- `findTrusted` from the source. -/
def findTrusted (objects : List Obj) : Except GoStr TrustMap :=
  findTrustedGo [] objects

/-- `Cert` from the source; `X` abstracts `*x509.Certificate` (the parsed
certificate structure, which lives in Go's standard library and is not part
of this repository); the `Cert` field's `some` models a non-nil
`*x509.Certificate` pointer. -/
structure Cert (X : Type) where
  Label : GoStr
  Data : GoStr
  Trust : TrustLevel
  Cert : Option X
deriving DecidableEq

/-- The certificate-extraction loop of `ReadTrustedCerts`, parameterised by
`parseCert`, an abstract model of `crypto/x509.ParseCertificate` (standard
library, external to this repository): `some` models a successful parse
returning a non-nil certificate, `none` a parse error. Objects not of class
`CKO_CERTIFICATE`, labels absent from the trust map, and values that fail to
parse are skipped silently, exactly as in the source. -/
def extractCerts {X : Type} (parseCert : GoStr → Option X) (trusted : TrustMap) :
    List Obj → List (Cert X)
  | [] => []
  | obj :: rest =>
    if objGet obj ("CKA_CLASS").toList ≠ ("CKO_CERTIFICATE").toList then
      extractCerts parseCert trusted rest
    else
      match lookupTrust trusted (objGet obj ("CKA_LABEL").toList) with
      | none => extractCerts parseCert trusted rest
      | some trust =>
        match parseCert (objGet obj ("CKA_VALUE").toList) with
        | none => extractCerts parseCert trusted rest
        | some cert =>
          ⟨objGet obj ("CKA_LABEL").toList, objGet obj ("CKA_VALUE").toList,
           trust, some cert⟩ :: extractCerts parseCert trusted rest

/-- The part of `ReadTrustedCerts` downstream of `ReadObjects`: resolve
trust over the object list (propagating `findTrusted`'s error, under which
the Go function returns a nil certificate list) and extract the trusted
certificates. -/
def readTrustedFromObjects {X : Type} (parseCert : GoStr → Option X) (objects : List Obj) :
    Except GoStr (List (Cert X)) :=
  match findTrusted objects with
  | .error e => .error e
  | .ok trusted => .ok (extractCerts parseCert trusted objects)

/-- `ReadTrustedCerts` from the source: parse objects, resolve trust,
extract certificates. Errors from `ReadObjects` or `findTrusted` abort the
whole run with a nil certificate list (`Except.error`). -/
def ReadTrustedCerts {X : Type} (parseCert : GoStr → Option X) (fuel : Nat)
    (input : List String) : GoOut (Except GoStr (List (Cert X))) :=
  match ReadObjects fuel input with
  | .crash => .crash
  | .diverge => .diverge
  | .ret (.error e) => .ret (.error e)
  | .ret (.ok objects) => .ret (readTrustedFromObjects parseCert objects)

/-- `scanObject` wrapped for chaining successive calls: `some` exactly when
the call returned `true`. -/
def scanObjectTrue (ms : MozScanner) : Option MozScanner :=
  match scanObject ms with
  | .ret (true, ms') => some ms'
  | _ => none

/-- An octal digit character `'0'..'7'` for a value `x < 8`. -/
def octChar (x : Nat) : Char := Char.ofNat (48 + x)

/-- Modelled from the spec: the three octal digits of a byte value, most
significant first (the `ooo` of a `\ooo` group). -/
def octal3 (b : Nat) : GoStr := [octChar (b / 64), octChar (b / 8 % 8), octChar (b % 8)]

/-- Modelled from the spec: the `\ooo`-grouped textual encoding of a byte
sequence — four characters per byte, a backslash followed by three octal
digits, with no separators. The repository only decodes this form; the
encoder is defined here from the spec's words to state the round-trip law. -/
def encodeOctalGroups : List Nat → GoStr
  | [] => []
  | b :: bs => '\\' :: (octal3 b ++ encodeOctalGroups bs)

/-! ### Supporting lemmas: line consumption and fuel sufficiency -/

theorem readMultilineOctalBody_rest_le :
    ∀ (lines : List String) (ln : Nat) (acc bs : List Nat) (e : Option GoStr)
      (rest : List String) (ln' : Nat),
      readMultilineOctalBody lines ln acc = some (bs, e, rest, ln') →
      rest.length ≤ lines.length := by
  intro lines
  induction lines with
  | nil =>
    intro ln acc bs e rest ln' h
    unfold readMultilineOctalBody at h
    simp only [Option.some.injEq, Prod.mk.injEq] at h
    simp [← h.2.2.1]
  | cons l rest0 ih =>
    intro ln acc bs e rest ln' h
    unfold readMultilineOctalBody at h
    split at h
    · simp only [Option.some.injEq, Prod.mk.injEq] at h
      simp [← h.2.2.1, Nat.le_succ]
    · split at h
      · exact Option.noConfusion h
      · simp only [Option.some.injEq, Prod.mk.injEq] at h
        simp [← h.2.2.1, Nat.le_succ]
      · exact Nat.le_succ_of_le (ih _ _ _ _ _ _ h)

theorem readMultilineOctal_rest_le (lines : List String) (ln : Nat) (vp : GoStr × Option GoStr)
    (rest : List String) (ln' : Nat) (h : readMultilineOctal lines ln = some (vp, rest, ln')) :
    rest.length ≤ lines.length := by
  unfold readMultilineOctal at h
  split at h
  · exact Option.noConfusion h
  · rename_i bytes de rest0 ln0 hb
    simp only [Option.some.injEq, Prod.mk.injEq] at h
    obtain ⟨-, h2, -⟩ := h
    exact h2 ▸ readMultilineOctalBody_rest_le lines ln [] bytes de rest0 ln0 hb


theorem readMultilineGenericBody_rest_le :
    ∀ (lines : List String) (ln : Nat) (acc : List GoStr),
      (readMultilineGenericBody lines ln acc).2.2.1.length ≤ lines.length := by
  intro lines
  induction lines with
  | nil => intro ln acc; simp [readMultilineGenericBody]
  | cons l rest0 ih =>
    intro ln acc
    unfold readMultilineGenericBody
    split
    · simp [Nat.le_succ]
    · exact Nat.le_succ_of_le (ih _ _)

theorem readMultilineGeneric_rest_le (lines : List String) (ln : Nat) :
    (readMultilineGeneric lines ln).2.1.length ≤ lines.length := by
  unfold readMultilineGeneric
  split
  rename_i acc de rest0 ln0 hb
  have := readMultilineGenericBody_rest_le lines ln []
  rw [hb] at this
  exact this

theorem scanDispatch_tok_le (f t : GoStr) (v3 : Option GoStr) (rest : List String) (ln : Nat)
    (v : MozValue) (rest' : List String) (ln' : Nat)
    (h : scanDispatch f t v3 rest ln = .tok v rest' ln') : rest'.length ≤ rest.length := by
  unfold scanDispatch at h
  split at h
  · split at h
    · split at h
      · simp only [ScanStep.tok.injEq] at h
        obtain ⟨-, h2, -⟩ := h
        subst h2
        exact Nat.le_refl _
      · split at h
        · simp only [ScanStep.tok.injEq] at h
          obtain ⟨-, h2, -⟩ := h
          subst h2
          exact Nat.le_refl _
        · exact ScanStep.noConfusion h
    · simp only [ScanStep.tok.injEq] at h
      obtain ⟨-, h2, -⟩ := h
      subst h2
      exact Nat.le_refl _
  · split at h
    · split at h
      · exact ScanStep.noConfusion h
      · split at h
        · split at h
          · exact ScanStep.noConfusion h
          · exact ScanStep.noConfusion h
          · rename_i vv rest0 ln0 hro
            simp only [ScanStep.tok.injEq] at h
            obtain ⟨-, h2, -⟩ := h
            subst h2
            exact readMultilineOctal_rest_le rest ln _ rest0 ln0 hro
        · split at h
          · exact ScanStep.noConfusion h
          · rename_i vv rest0 ln0 hrg
            simp only [ScanStep.tok.injEq] at h
            obtain ⟨-, h2, -⟩ := h
            subst h2
            have := readMultilineGeneric_rest_le rest ln
            rw [hrg] at this
            exact this
    · split at h
      · simp only [ScanStep.tok.injEq] at h
        obtain ⟨-, h2, -⟩ := h
        subst h2
        exact Nat.le_refl _
      · simp only [ScanStep.tok.injEq] at h
        obtain ⟨-, h2, -⟩ := h
        subst h2
        exact Nat.le_refl _

theorem scanValueLoop_tok_lt :
    ∀ (lines : List String) (ln : Nat) (v : MozValue) (rest' : List String) (ln' : Nat),
      scanValueLoop lines ln = .tok v rest' ln' → rest'.length < lines.length := by
  intro lines
  induction lines with
  | nil =>
    intro ln v rest' ln' h
    unfold scanValueLoop at h
    exact ScanStep.noConfusion h
  | cons line rest0 ih =>
    intro ln v rest' ln' h
    unfold scanValueLoop at h
    split at h
    · exact Nat.lt_succ_of_lt (ih _ _ _ _ h)
    · split at h
      · exact Nat.lt_succ_of_lt (ih _ _ _ _ h)
      · split at h
        · exact Nat.lt_succ_of_lt (ih _ _ _ _ h)
        · exact Nat.lt_succ_of_le (scanDispatch_tok_le _ _ _ _ _ _ _ _ h)
        · exact Nat.lt_succ_of_le (scanDispatch_tok_le _ _ _ _ _ _ _ _ h)

theorem skipHeaderGo_true_lt :
    ∀ (lines : List String) (ln : Nat) (rest : List String) (ln' : Nat),
      skipHeaderGo lines ln = (true, rest, ln') → rest.length < lines.length := by
  intro lines
  induction lines with
  | nil =>
    intro ln rest ln' h
    unfold skipHeaderGo at h
    simp at h
  | cons l rest0 ih =>
    intro ln rest ln' h
    unfold skipHeaderGo at h
    split at h
    · simp only [Prod.mk.injEq, true_and] at h
      rw [← h.1]
      exact Nat.lt_succ_self _
    · exact Nat.lt_succ_of_lt (ih _ _ _ h)

theorem scanValueGo_true_lt (ms ms' : MozScanner) (h : scanValueGo ms = some (true, ms')) :
    ms'.lines.length < ms.lines.length := by
  unfold scanValueGo at h
  split at h
  · exact Option.noConfusion h
  · simp at h
  · simp at h
  · rename_i v rest ln hloop
    simp only [Option.some.injEq, Prod.mk.injEq, true_and] at h
    rw [← h]
    exact scanValueLoop_tok_lt ms.lines ms.ln v rest ln hloop

theorem scanValueCore_true_lt (ms ms' : MozScanner)
    (h : scanValueCore ms = some (true, ms')) : ms'.lines.length < ms.lines.length := by
  unfold scanValueCore at h
  split at h
  · exact scanValueGo_true_lt _ _ h
  · split at h
    · simp at h
    · rename_i rest ln hskip
      have h1 := scanValueGo_true_lt _ _ h
      have h2 := skipHeaderGo_true_lt ms.lines ms.ln rest ln hskip
      exact Nat.lt_trans h1 h2

theorem scanValue_true_lt (ms ms' : MozScanner) (h : scanValue ms = some (true, ms')) :
    ms'.lines.length < ms.lines.length := by
  unfold scanValue at h
  exact scanValueCore_true_lt { ms with valueError := none } ms' h

theorem scanObjLoop1_ne_diverge :
    ∀ (fuel : Nat) (value : MozValue) (ms : MozScanner), ms.lines.length < fuel →
      scanObjLoop1 fuel value ms ≠ .diverge := by
  intro fuel
  induction fuel with
  | zero => intro value ms hlt; exact absurd hlt (Nat.not_lt_zero _)
  | succ fuel ih =>
    intro value ms hlt
    unfold scanObjLoop1
    split
    · exact fun hc => GoOut.noConfusion hc
    · split
      · exact fun hc => GoOut.noConfusion hc
      · exact fun hc => GoOut.noConfusion hc
      · rename_i ms' hsv
        have hlt' : ms'.lines.length < fuel :=
          Nat.lt_of_lt_of_le (scanValue_true_lt ms ms' hsv) (Nat.lt_succ_iff.mp hlt)
        exact ih ms'.lastValue ms' hlt'

theorem scanObjLoop2_ne_diverge :
    ∀ (fuel : Nat) (object : Obj) (ms : MozScanner), ms.lines.length < fuel →
      scanObjLoop2 fuel object ms ≠ .diverge := by
  intro fuel
  induction fuel with
  | zero => intro object ms hlt; exact absurd hlt (Nat.not_lt_zero _)
  | succ fuel ih =>
    intro object ms hlt
    unfold scanObjLoop2
    split
    · exact fun hc => GoOut.noConfusion hc
    · rename_i ms' hsv
      split
      · exact fun hc => GoOut.noConfusion hc
      · have hlt' : ms'.lines.length < fuel :=
          Nat.lt_of_lt_of_le (scanValue_true_lt ms ms' hsv) (Nat.lt_succ_iff.mp hlt)
        exact ih _ ms' hlt'
    · split
      · exact fun hc => GoOut.noConfusion hc
      · exact fun hc => GoOut.noConfusion hc

theorem scanObject_ne_diverge (ms : MozScanner) : scanObject ms ≠ .diverge := by
  unfold scanObject scanObjectCore
  split
  · exact fun hc => GoOut.noConfusion hc
  · rename_i h1
    exact absurd h1 (scanObjLoop1_ne_diverge _ _ _ (Nat.lt_succ_self _))
  · split
    · exact fun hc => GoOut.noConfusion hc
    · split
      · exact scanObjLoop2_ne_diverge _ _ _ (Nat.lt_succ_self _)
      · exact fun hc => GoOut.noConfusion hc

/-! ### Supporting lemmas: the trust resolver -/

theorem findTrustedGo_append_ok (pre : List Obj) :
    ∀ (m m' : TrustMap) (post : List Obj), findTrustedGo m pre = .ok m' →
      findTrustedGo m (pre ++ post) = findTrustedGo m' post := by
  induction pre with
  | nil =>
    intro m m' post h
    simp only [findTrustedGo, Except.ok.injEq] at h
    subst h
    simp
  | cons obj rest ih =>
    intro m m' post h
    simp only [findTrustedGo] at h
    simp only [List.cons_append, findTrustedGo]
    cases hstep : findTrustedStep m obj with
    | error e =>
      rw [hstep] at h
      exact Except.noConfusion h
    | ok t' =>
      rw [hstep] at h
      exact ih t' m' post h

theorem findTrustedGo_append_error (pre : List Obj) :
    ∀ (m : TrustMap) (e : GoStr) (post : List Obj), findTrustedGo m pre = .error e →
      findTrustedGo m (pre ++ post) = .error e := by
  induction pre with
  | nil =>
    intro m e post h
    simp only [findTrustedGo] at h
    exact Except.noConfusion h
  | cons obj rest ih =>
    intro m e post h
    simp only [findTrustedGo] at h
    simp only [List.cons_append, findTrustedGo]
    cases hstep : findTrustedStep m obj with
    | error e' =>
      rw [hstep] at h
      exact h
    | ok t' =>
      rw [hstep] at h
      exact ih t' e post h

theorem findTrustedStep_bits (m m' : TrustMap) (obj : Obj)
    (hm : ∀ p ∈ m, p.2.ServerTrustedDelegator = true ∨ p.2.EmailTrustedDelegator = true ∨
            p.2.CodeTrustedDelegator = true)
    (h : findTrustedStep m obj = .ok m') :
    ∀ p ∈ m', p.2.ServerTrustedDelegator = true ∨ p.2.EmailTrustedDelegator = true ∨
      p.2.CodeTrustedDelegator = true := by
  unfold findTrustedStep at h
  split at h
  · simp only [Except.ok.injEq] at h; subst h; exact hm
  · split at h
    · exact Except.noConfusion h
    · split at h
      · exact Except.noConfusion h
      · split at h
        · exact Except.noConfusion h
        · split at h
          · simp only [Except.ok.injEq] at h; subst h; exact hm
          · split at h
            · rename_i hcond
              simp only [Except.ok.injEq] at h
              subst h
              intro p hp
              cases hp with
              | head =>
                simp only [Bool.or_eq_true] at hcond
                rcases hcond with (h1 | h2) | h3
                · exact Or.inl h1
                · exact Or.inr (Or.inl h2)
                · exact Or.inr (Or.inr h3)
              | tail _ htail => exact hm p htail
            · simp only [Except.ok.injEq] at h; subst h; exact hm

theorem findTrustedGo_bits :
    ∀ (objs : List Obj) (m m' : TrustMap),
      (∀ p ∈ m, p.2.ServerTrustedDelegator = true ∨ p.2.EmailTrustedDelegator = true ∨
         p.2.CodeTrustedDelegator = true) →
      findTrustedGo m objs = .ok m' →
      ∀ p ∈ m', p.2.ServerTrustedDelegator = true ∨ p.2.EmailTrustedDelegator = true ∨
        p.2.CodeTrustedDelegator = true := by
  intro objs
  induction objs with
  | nil =>
    intro m m' hm h
    simp only [findTrustedGo, Except.ok.injEq] at h
    subst h
    exact hm
  | cons obj rest ih =>
    intro m m' hm h
    simp only [findTrustedGo] at h
    cases hstep : findTrustedStep m obj with
    | error e =>
      rw [hstep] at h
      exact Except.noConfusion h
    | ok t' =>
      rw [hstep] at h
      exact ih t' m' (findTrustedStep_bits m t' obj hm hstep) h

theorem findTrusted_bits (objects : List Obj) (m : TrustMap)
    (h : findTrusted objects = .ok m) :
    ∀ p ∈ m, p.2.ServerTrustedDelegator = true ∨ p.2.EmailTrustedDelegator = true ∨
      p.2.CodeTrustedDelegator = true :=
  findTrustedGo_bits objects [] m (by intro p hp; exact absurd hp (List.not_mem_nil p)) h

theorem lookupTrust_mem :
    ∀ (m : TrustMap) (k : GoStr) (v : TrustLevel), lookupTrust m k = some v → (k, v) ∈ m := by
  intro m
  induction m with
  | nil => intro k v h; exact Option.noConfusion h
  | cons p rest ih =>
    intro k v h
    unfold lookupTrust at h
    split at h
    · rename_i hk
      simp only [Option.some.injEq] at h
      subst h
      subst hk
      exact List.mem_cons_self _ _
    · exact List.mem_cons_of_mem _ (ih k v h)

theorem extractCerts_sound {X : Type} (parseCert : GoStr → Option X) (trusted : TrustMap) :
    ∀ (objs : List Obj) (c : Cert X), c ∈ extractCerts parseCert trusted objs →
      (∃ x, c.Cert = some x ∧ parseCert c.Data = some x) ∧
      ∃ l, (l, c.Trust) ∈ trusted := by
  intro objs
  induction objs with
  | nil =>
    intro c hc
    simp only [extractCerts] at hc
    exact absurd hc (List.not_mem_nil c)
  | cons obj rest ih =>
    intro c hc
    unfold extractCerts at hc
    split at hc
    · exact ih c hc
    · split at hc
      · exact ih c hc
      · rename_i trust hlk
        split at hc
        · exact ih c hc
        · rename_i cert hpc
          cases hc with
          | head =>
            constructor
            · exact ⟨cert, rfl, hpc⟩
            · exact ⟨objGet obj ("CKA_LABEL").toList, lookupTrust_mem trusted _ trust hlk⟩
          | tail _ htail => exact ih c htail

theorem findTrustedStep_notTrusted (m : TrustMap) (obj : Obj)
    (hnot : objGet obj ("CKA_TRUST_SERVER_AUTH").toList = ("CKT_NSS_NOT_TRUSTED").toList ∨
            objGet obj ("CKA_TRUST_EMAIL_PROTECTION").toList = ("CKT_NSS_NOT_TRUSTED").toList ∨
            objGet obj ("CKA_TRUST_CODE_SIGNING").toList = ("CKT_NSS_NOT_TRUSTED").toList) :
    findTrustedStep m obj = .ok m ∨ ∃ e, findTrustedStep m obj = .error e := by
  unfold findTrustedStep
  split
  · exact Or.inl rfl
  · split
    · exact Or.inr ⟨_, rfl⟩
    · split
      · exact Or.inr ⟨_, rfl⟩
      · split
        · exact Or.inr ⟨_, rfl⟩
        · exact Or.inl rfl

theorem findTrustedStep_unknown (m : TrustMap) (obj : Obj)
    (hclass : objGet obj ("CKA_CLASS").toList = ("CKO_NSS_TRUST").toList)
    (hbad : contains (objGet obj ("CKA_TRUST_SERVER_AUTH").toList) knownTrustLevels = false ∨
            contains (objGet obj ("CKA_TRUST_EMAIL_PROTECTION").toList) knownTrustLevels = false ∨
            contains (objGet obj ("CKA_TRUST_CODE_SIGNING").toList) knownTrustLevels = false) :
    ∃ e, findTrustedStep m obj = .error e := by
  unfold findTrustedStep
  split
  · rename_i hne
    exact absurd hclass hne
  · split
    · exact ⟨_, rfl⟩
    · split
      · exact ⟨_, rfl⟩
      · split
        · exact ⟨_, rfl⟩
        · exfalso
          rename_i hb1 hb2 hb3
          simp only [Bool.not_eq_true, Bool.not_eq_false] at hb1 hb2 hb3
          rcases hbad with hb | hb | hb
          · rw [hb] at hb1; exact Bool.noConfusion hb1
          · rw [hb] at hb2; exact Bool.noConfusion hb2
          · rw [hb] at hb3; exact Bool.noConfusion hb3

theorem octChar_facts :
    ∀ x < 8, octChar x ≠ '+' ∧ octChar x ≠ '-' ∧ octDigit (octChar x) = some x := by decide

theorem parseOctDigits_octal3 (b : Nat) (h : b < 256) :
    parseOctDigits [octChar (b / 64), octChar (b / 8 % 8), octChar (b % 8)] 0 = some b := by
  obtain ⟨-, -, hd1⟩ := octChar_facts (b / 64) (by omega)
  obtain ⟨-, -, hd2⟩ := octChar_facts (b / 8 % 8) (Nat.mod_lt _ (by omega))
  obtain ⟨-, -, hd3⟩ := octChar_facts (b % 8) (Nat.mod_lt _ (by omega))
  simp only [parseOctDigits, hd1, hd2, hd3, Option.some.injEq]
  omega

theorem parseOct_octal3 (b : Nat) (h : b < 256) : parseOct (octal3 b) = some (b : Int) := by
  obtain ⟨hp, hm, -⟩ := octChar_facts (b / 64) (by omega)
  unfold octal3
  simp only [parseOct]
  rw [if_neg hp, if_neg hm]
  unfold parseOctCore
  rw [parseOctDigits_octal3 b h]
  simp only [parseOctDigits_octal3 b h]
  simp
  omega

theorem processOctalGroups_encode :
    ∀ (bs : List Nat), (∀ b ∈ bs, b < 256) →
      processOctalGroups (encodeOctalGroups bs) = some (bs, false) := by
  intro bs
  induction bs with
  | nil => intro _; rfl
  | cons b rest ih =>
    intro h
    have hb : b < 256 := h b (List.mem_cons_self _ _)
    have hr := ih (fun x hx => h x (List.mem_cons_of_mem _ hx))
    have hByte : ((b : Int) % 256).toNat = b := by omega
    simp only [encodeOctalGroups, octal3, List.cons_append, List.nil_append]
    simp only [processOctalGroups]
    rw [show [octChar (b / 64), octChar (b / 8 % 8), octChar (b % 8)] =
          octal3 b from rfl, parseOct_octal3 b hb, hr]
    simp [hByte]

theorem encodeOctalGroups_ne_END (bs : List Nat) :
    String.mk (encodeOctalGroups bs) ≠ "END" := by
  intro hc
  have h2 : encodeOctalGroups bs = ['E', 'N', 'D'] := congrArg String.toList hc
  cases bs with
  | nil => exact absurd h2 (by decide)
  | cons b rest =>
    simp only [encodeOctalGroups] at h2
    injection h2 with hh _
    exact absurd hh (by decide)

/-! ### Claim theorems -/

/-- C1: every certificate record in the list returned by `ReadTrustedCerts`
has a non-nil parsed certificate (`Cert = some x`, obtained by a
successful parse of the object's `CKA_VALUE`, which is the record's `Data`)
and a `Trust` with at least one of the three delegator booleans set to
true; no record violating either condition is ever included in the
result. -/
theorem readTrustedCerts_invariant {X : Type} (parseCert : GoStr → Option X) (fuel : Nat)
    (input : List String) (certs : List (Cert X))
    (h : ReadTrustedCerts parseCert fuel input = .ret (.ok certs)) :
    ∀ c ∈ certs,
      (∃ x, c.Cert = some x ∧ parseCert c.Data = some x) ∧
      (c.Trust.ServerTrustedDelegator = true ∨ c.Trust.EmailTrustedDelegator = true ∨
       c.Trust.CodeTrustedDelegator = true) := by
  unfold ReadTrustedCerts at h
  split at h
  · exact GoOut.noConfusion h
  · exact GoOut.noConfusion h
  · simp at h
  · rename_i objects hro
    simp only [GoOut.ret.injEq] at h
    unfold readTrustedFromObjects at h
    split at h
    · exact Except.noConfusion h
    · rename_i trusted hft
      simp only [Except.ok.injEq] at h
      subst h
      intro c hc
      obtain ⟨hparse, l, hmem⟩ := extractCerts_sound parseCert trusted objects c hc
      exact ⟨hparse, findTrusted_bits objects trusted hft (l, c.Trust) hmem⟩

/-- C2: for every trust-declaration object (`CKA_CLASS = CKO_NSS_TRUST`) in
which at least one of `CKA_TRUST_SERVER_AUTH`, `CKA_TRUST_EMAIL_PROTECTION`,
`CKA_TRUST_CODE_SIGNING` equals `CKT_NSS_NOT_TRUSTED`, `findTrusted` puts
no entry for that object into the resulting trust map — the map equals the
one computed without the declaration — even if another of the three fields
equals `CKT_NSS_TRUSTED_DELEGATOR`; the only other possibility is that the
whole resolution fails with an error. -/
theorem findTrusted_notTrusted_noEntry (pre post : List Obj) (obj : Obj)
    (hclass : objGet obj ("CKA_CLASS").toList = ("CKO_NSS_TRUST").toList)
    (hnot : objGet obj ("CKA_TRUST_SERVER_AUTH").toList = ("CKT_NSS_NOT_TRUSTED").toList ∨
            objGet obj ("CKA_TRUST_EMAIL_PROTECTION").toList = ("CKT_NSS_NOT_TRUSTED").toList ∨
            objGet obj ("CKA_TRUST_CODE_SIGNING").toList = ("CKT_NSS_NOT_TRUSTED").toList) :
    findTrusted (pre ++ obj :: post) = findTrusted (pre ++ post) ∨
    ∃ e, findTrusted (pre ++ obj :: post) = Except.error e := by
  unfold findTrusted
  cases hpre : findTrustedGo [] pre with
  | error e =>
    rw [findTrustedGo_append_error pre [] e (obj :: post) hpre,
        findTrustedGo_append_error pre [] e post hpre]
    exact Or.inl rfl
  | ok m =>
    rw [findTrustedGo_append_ok pre [] m (obj :: post) hpre,
        findTrustedGo_append_ok pre [] m post hpre]
    rcases findTrustedStep_notTrusted m obj hnot with hok | ⟨e, herr⟩
    · left
      simp only [findTrustedGo]
      rw [hok]
    · right
      refine ⟨e, ?_⟩
      simp only [findTrustedGo]
      rw [herr]

/-- C3: for every object list containing a trust-declaration object
(`CKA_CLASS = CKO_NSS_TRUST`) in which any of the three trust fields holds
a string outside `knownTrustLevels`, `findTrusted` returns an error, and
therefore `ReadTrustedCerts` on an input producing that object list returns
a nil certificate list with that error — the record is not silently
skipped. -/
theorem findTrusted_unknownTrust_error {X : Type} (parseCert : GoStr → Option X) (fuel : Nat)
    (input : List String) (objects : List Obj) (obj : Obj)
    (hro : ReadObjects fuel input = .ret (.ok objects))
    (hmem : obj ∈ objects)
    (hclass : objGet obj ("CKA_CLASS").toList = ("CKO_NSS_TRUST").toList)
    (hbad : contains (objGet obj ("CKA_TRUST_SERVER_AUTH").toList) knownTrustLevels = false ∨
            contains (objGet obj ("CKA_TRUST_EMAIL_PROTECTION").toList) knownTrustLevels = false ∨
            contains (objGet obj ("CKA_TRUST_CODE_SIGNING").toList) knownTrustLevels = false) :
    (∃ e, findTrusted objects = Except.error e) ∧
    ∃ e, ReadTrustedCerts parseCert fuel input = .ret (.error e) := by
  have hft : ∃ e, findTrusted objects = Except.error e := by
    obtain ⟨pre, post, rfl⟩ := List.append_of_mem hmem
    unfold findTrusted
    cases hpre : findTrustedGo [] pre with
    | error e => exact ⟨e, findTrustedGo_append_error pre [] e (obj :: post) hpre⟩
    | ok m =>
      obtain ⟨e, he⟩ := findTrustedStep_unknown m obj hclass hbad
      refine ⟨e, ?_⟩
      rw [findTrustedGo_append_ok pre [] m (obj :: post) hpre]
      simp only [findTrustedGo]
      rw [he]
  obtain ⟨e, he⟩ := hft
  refine ⟨⟨e, he⟩, e, ?_⟩
  unfold ReadTrustedCerts
  rw [hro]
  have hr : readTrustedFromObjects (X := X) parseCert objects = Except.error e := by
    unfold readTrustedFromObjects
    rw [he]
  exact congrArg GoOut.ret hr

theorem skipHeaderGo_notFound :
    ∀ (lines : List String), ("BEGINDATA" : String) ∉ lines → ∀ ln : Nat,
      skipHeaderGo lines ln = (false, [], ln + lines.length) := by
  intro lines
  induction lines with
  | nil => intro _ ln; simp [skipHeaderGo]
  | cons l rest ih =>
    intro h ln
    unfold skipHeaderGo
    rw [if_neg (by intro hl; subst hl; exact h (List.mem_cons_self _ _))]
    rw [ih (fun hm => h (List.mem_cons_of_mem l hm)) (ln + 1)]
    simp only [List.length_cons, Prod.mk.injEq, true_and]
    omega

theorem scanValueCore_headerMissing (ms0 : MozScanner) (h2 : ms0.skippedHeader = false)
    (ln' : Nat) (hsk : skipHeaderGo ms0.lines ms0.ln = (false, [], ln')) :
    scanValueCore ms0 = some (false,
      { ms0 with
        lines := []
        ln := ln'
        valueError := some (("BEGINDATA line not found in certdata input").toList) }) := by
  unfold scanValueCore
  rw [if_neg (by simp [h2])]
  rw [hsk]

theorem scanTokens_of_false (n : Nat) (ms ms' : MozScanner)
    (h : scanValue ms = some (false, ms')) : scanTokens n ms = [] := by
  cases n with
  | zero => rfl
  | succ n =>
    unfold scanTokens
    rw [h]

/-- C6: for every input stream that contains no line equal to `BEGINDATA`,
the first call to `ScanValue` returns `false` with a retrievable non-nil
error, and no token is ever produced — neither by the initial scanner nor
by any number of subsequent `ScanValue` calls on the failed state. -/
theorem scanValue_missingBeginData (input : List String)
    (h : ("BEGINDATA" : String) ∉ input) :
    (∃ ms', scanValue (NewMozScanner input) = some (false, ms') ∧
       ms'.valueError.isSome = true ∧ ∀ n, scanTokens n ms' = []) ∧
    ∀ n, scanTokens n (NewMozScanner input) = [] := by
  have hsv : scanValue (NewMozScanner input) = some (false,
      { lines := [], ln := 0 + input.length, skippedHeader := false,
        lastValue := { Field := [], Typ := [], Value := [] },
        valueError := some (("BEGINDATA line not found in certdata input").toList),
        lastObject := [], objectError := none }) := by
    show scanValueCore
        { lines := input, ln := 0, skippedHeader := false,
          lastValue := { Field := [], Typ := [], Value := [] }, valueError := none,
          lastObject := [], objectError := none } = _
    exact scanValueCore_headerMissing
      { lines := input, ln := 0, skippedHeader := false,
        lastValue := { Field := [], Typ := [], Value := [] }, valueError := none,
        lastObject := [], objectError := none } rfl (0 + input.length)
      (skipHeaderGo_notFound input h 0)
  have hagain : ∀ ms : MozScanner, ms.lines = [] → ms.skippedHeader = false →
      ∃ ms'', scanValue ms = some (false, ms'') := by
    intro ms hl hs
    refine ⟨_, scanValueCore_headerMissing { ms with valueError := none } hs ms.ln ?_⟩
    show skipHeaderGo ms.lines ms.ln = (false, [], ms.ln)
    rw [hl]
    rfl
  refine ⟨⟨_, hsv, rfl, ?_⟩, ?_⟩
  · intro n
    obtain ⟨ms'', hf⟩ := hagain
      { lines := [], ln := 0 + input.length, skippedHeader := false,
        lastValue := { Field := [], Typ := [], Value := [] },
        valueError := some (("BEGINDATA line not found in certdata input").toList),
        lastObject := [], objectError := none } rfl rfl
    exact scanTokens_of_false n _ _ hf
  · intro n
    exact scanTokens_of_false n _ _ hsv

/-- C8: for every byte sequence, encoding it into the `\ooo`-grouped
textual form (four characters per byte: a backslash and three octal
digits, no separators) and decoding that text with the `MULTILINE_OCTAL`
decoder (`readMultilineOctalBody` over the encoded line followed by `END`)
yields exactly the original bytes in order — decode after encode is the
identity, so decode-encode-decode equals decode. -/
theorem readMultilineOctal_roundtrip (bs : List Nat) (h : ∀ b ∈ bs, b < 256) (ln : Nat) :
    readMultilineOctalBody [String.mk (encodeOctalGroups bs), "END"] ln [] =
      some (bs, none, [], ln + 2) := by
  unfold readMultilineOctalBody
  rw [if_neg (encodeOctalGroups_ne_END bs)]
  rw [show (String.mk (encodeOctalGroups bs)).toList = encodeOctalGroups bs from rfl]
  rw [processOctalGroups_encode bs h]
  unfold readMultilineOctalBody
  rw [if_pos rfl]
  simp [Nat.add_assoc]

/-- C4: evaluation of the code at a failing input. The claim says a
MULTILINE value that reaches end-of-stream without an `END` line makes
`ScanValue` return `false` with a non-nil `ScanValueError`; the code
instead swallows `readMultiline`'s EOF error (its result is discarded in
`readMultilineOctal`/`readMultilineGeneric`), so `ScanValue` returns `true`
with a nil error and the partial value. -/
theorem scanValue_unterminatedMultiline_noError :
    ∃ ms', scanValue (NewMozScanner ["BEGINDATA", "A MULTILINE_OCTAL", "\\101"]) =
      some (true, ms') ∧ ms'.valueError = none ∧
      ms'.lastValue = ⟨("A").toList, ("MULTILINE_OCTAL").toList, ("A").toList⟩ :=
  ⟨_, rfl, rfl, rfl⟩

/-- C5: evaluation of the code at a failing input. The claim says a
malformed 4-character octal group makes `ScanValue` return `false` with a
non-nil `ScanValueError`; the code instead swallows the `strconv.ParseInt`
error (`readMultilineOctal` discards `readMultiline`'s result), so
`ScanValue` returns `true` with a nil error and an empty value, leaving the
`END` line unconsumed. -/
theorem scanValue_malformedOctal_noError :
    ∃ ms', scanValue (NewMozScanner ["BEGINDATA", "A MULTILINE_OCTAL", "\\9zz", "END"]) =
      some (true, ms') ∧ ms'.valueError = none ∧ ms'.lastValue.Value = [] ∧
      ms'.lines = ["END"] :=
  ⟨_, rfl, rfl, rfl, rfl⟩

/-- C7: evaluation of the code at a failing input. The claim says the final
in-progress object at end of stream is returned exactly once and the
following `ScanObject` call returns `false`; but when the last scanned
token's field is `CKA_CLASS` (here the input's final line), `lastValue` is
never cleared, so every subsequent `ScanObject` seeds a fresh copy of the
same one-field object and returns `true` again — three consecutive calls
all succeed, the third repeating the second's object. -/
theorem scanObject_trailingClass_repeats :
    ∃ s1 s2 s3,
      scanObjectTrue (NewMozScanner ["BEGINDATA", "CKA_CLASS a x", "CKA_CLASS b y"]) = some s1 ∧
      scanObjectTrue s1 = some s2 ∧
      scanObjectTrue s2 = some s3 ∧
      s3.lastObject = s2.lastObject ∧
      s2.lastObject = [(("CKA_CLASS").toList, ("y").toList)] :=
  ⟨_, _, _, rfl, rfl, rfl, rfl, rfl⟩

/-- C9: evaluation of the code at a failing input. The claim says the
unquote fallback slice `parts[2][1:len(parts[2])-1]` stays in bounds for an
inline region shorter than 2 characters; in fact for `A UTF8 x` Go slices
`"x"[1:0]`, which panics (modelled as `none`). -/
theorem scanValue_shortUTF8_crash :
    scanValue (NewMozScanner ["BEGINDATA", "A UTF8 x"]) = none := rfl

/-- C10: evaluation of the code at a failing input. The claim says the
per-group slice `line[i+1:i+4]` stays in bounds for lines whose length is
not a multiple of 4; in fact for the 3-character line `\10` Go slices
`line[1:4]` with `len(line) = 3`, which panics (modelled as `none`). -/
theorem readMultilineOctal_shortGroup_crash :
    readMultilineOctal ["\\10", "END"] 0 = none := rfl

/-! ### Witnesses -/

/-- Witness for C1 at a concrete certdata input with one trusted
certificate, instantiated at that certificate record. -/
theorem readTrustedCerts_invariant_witness :
    (∃ x, ({ Label := ("L1").toList, Data := ("V1").toList, Trust := ⟨true, false, false⟩, Cert := some (("V1").toList) } : Cert GoStr).Cert = some x ∧
       (fun v => some v) ({ Label := ("L1").toList, Data := ("V1").toList, Trust := ⟨true, false, false⟩, Cert := some (("V1").toList) } : Cert GoStr).Data = some x) ∧
    (({ Label := ("L1").toList, Data := ("V1").toList, Trust := ⟨true, false, false⟩, Cert := some (("V1").toList) } : Cert GoStr).Trust.ServerTrustedDelegator = true ∨
     ({ Label := ("L1").toList, Data := ("V1").toList, Trust := ⟨true, false, false⟩, Cert := some (("V1").toList) } : Cert GoStr).Trust.EmailTrustedDelegator = true ∨
     ({ Label := ("L1").toList, Data := ("V1").toList, Trust := ⟨true, false, false⟩, Cert := some (("V1").toList) } : Cert GoStr).Trust.CodeTrustedDelegator = true) :=
  readTrustedCerts_invariant (fun v => some v) 4
    ["BEGINDATA",
     "CKA_CLASS o CKO_CERTIFICATE",
     "CKA_LABEL UTF8 \"L1\"",
     "CKA_VALUE t V1",
     "CKA_CLASS o CKO_NSS_TRUST",
     "CKA_LABEL UTF8 \"L1\"",
     "CKA_TRUST_SERVER_AUTH t CKT_NSS_TRUSTED_DELEGATOR",
     "CKA_TRUST_EMAIL_PROTECTION t CKT_NSS_MUST_VERIFY_TRUST",
     "CKA_TRUST_CODE_SIGNING t CKT_NSS_MUST_VERIFY_TRUST"]
    [{ Label := ("L1").toList, Data := ("V1").toList, Trust := ⟨true, false, false⟩, Cert := some (("V1").toList) }]
    rfl
    ({ Label := ("L1").toList, Data := ("V1").toList, Trust := ⟨true, false, false⟩, Cert := some (("V1").toList) })
    (List.mem_singleton.mpr rfl)

/-- Witness for C2: a declaration with server-auth not-trusted and
email trusted-delegator contributes nothing to the trust map. -/
theorem findTrusted_notTrusted_noEntry_witness :
    findTrusted ([] ++ [(("CKA_CLASS").toList, ("CKO_NSS_TRUST").toList),
                        (("CKA_TRUST_SERVER_AUTH").toList, ("CKT_NSS_NOT_TRUSTED").toList),
                        (("CKA_TRUST_EMAIL_PROTECTION").toList, ("CKT_NSS_TRUSTED_DELEGATOR").toList),
                        (("CKA_TRUST_CODE_SIGNING").toList, ("CKT_NSS_MUST_VERIFY_TRUST").toList)] :: []) =
      findTrusted ([] ++ []) ∨
    ∃ e, findTrusted ([] ++ [(("CKA_CLASS").toList, ("CKO_NSS_TRUST").toList),
                        (("CKA_TRUST_SERVER_AUTH").toList, ("CKT_NSS_NOT_TRUSTED").toList),
                        (("CKA_TRUST_EMAIL_PROTECTION").toList, ("CKT_NSS_TRUSTED_DELEGATOR").toList),
                        (("CKA_TRUST_CODE_SIGNING").toList, ("CKT_NSS_MUST_VERIFY_TRUST").toList)] :: []) =
      Except.error e :=
  findTrusted_notTrusted_noEntry [] []
    [(("CKA_CLASS").toList, ("CKO_NSS_TRUST").toList),
     (("CKA_TRUST_SERVER_AUTH").toList, ("CKT_NSS_NOT_TRUSTED").toList),
     (("CKA_TRUST_EMAIL_PROTECTION").toList, ("CKT_NSS_TRUSTED_DELEGATOR").toList),
     (("CKA_TRUST_CODE_SIGNING").toList, ("CKT_NSS_MUST_VERIFY_TRUST").toList)]
    rfl (Or.inl rfl)

/-- Witness for C3 at a concrete input whose trust declaration carries the
unknown code `BOGUS`. -/
theorem findTrusted_unknownTrust_error_witness :
    (∃ e, findTrusted [[(("CKA_TRUST_CODE_SIGNING").toList, ("CKT_NSS_MUST_VERIFY_TRUST").toList),
                        (("CKA_TRUST_EMAIL_PROTECTION").toList, ("CKT_NSS_MUST_VERIFY_TRUST").toList),
                        (("CKA_TRUST_SERVER_AUTH").toList, ("BOGUS").toList),
                        (("CKA_CLASS").toList, ("CKO_NSS_TRUST").toList)]] = Except.error e) ∧
    ∃ e, ReadTrustedCerts (fun v => some v) 3
        ["BEGINDATA",
         "CKA_CLASS o CKO_NSS_TRUST",
         "CKA_TRUST_SERVER_AUTH t BOGUS",
         "CKA_TRUST_EMAIL_PROTECTION t CKT_NSS_MUST_VERIFY_TRUST",
         "CKA_TRUST_CODE_SIGNING t CKT_NSS_MUST_VERIFY_TRUST"] = .ret (.error e) :=
  findTrusted_unknownTrust_error (fun v => some v) 3
    ["BEGINDATA",
     "CKA_CLASS o CKO_NSS_TRUST",
     "CKA_TRUST_SERVER_AUTH t BOGUS",
     "CKA_TRUST_EMAIL_PROTECTION t CKT_NSS_MUST_VERIFY_TRUST",
     "CKA_TRUST_CODE_SIGNING t CKT_NSS_MUST_VERIFY_TRUST"]
    [[(("CKA_TRUST_CODE_SIGNING").toList, ("CKT_NSS_MUST_VERIFY_TRUST").toList),
      (("CKA_TRUST_EMAIL_PROTECTION").toList, ("CKT_NSS_MUST_VERIFY_TRUST").toList),
      (("CKA_TRUST_SERVER_AUTH").toList, ("BOGUS").toList),
      (("CKA_CLASS").toList, ("CKO_NSS_TRUST").toList)]]
    [(("CKA_TRUST_CODE_SIGNING").toList, ("CKT_NSS_MUST_VERIFY_TRUST").toList),
     (("CKA_TRUST_EMAIL_PROTECTION").toList, ("CKT_NSS_MUST_VERIFY_TRUST").toList),
     (("CKA_TRUST_SERVER_AUTH").toList, ("BOGUS").toList),
     (("CKA_CLASS").toList, ("CKO_NSS_TRUST").toList)]
    rfl (List.mem_singleton.mpr rfl) rfl (Or.inl rfl)

/-- Witness for C6 at a concrete input without the sentinel. -/
theorem scanValue_missingBeginData_witness :
    (∃ ms', scanValue (NewMozScanner ["no begin", "line"]) = some (false, ms') ∧
       ms'.valueError.isSome = true ∧ ∀ n, scanTokens n ms' = []) ∧
    ∀ n, scanTokens n (NewMozScanner ["no begin", "line"]) = [] :=
  scanValue_missingBeginData ["no begin", "line"] (by decide)

/-- Witness for C8 at the concrete byte sequence `[0, 65, 255]`. -/
theorem readMultilineOctal_roundtrip_witness :
    readMultilineOctalBody [String.mk (encodeOctalGroups [0, 65, 255]), "END"] 0 [] =
      some ([0, 65, 255], none, [], 2) :=
  readMultilineOctal_roundtrip [0, 65, 255] (by decide) 0

end Certparse
